import Mathlib

/-!
Shallow embedding of `train_wgan_encoder.py` (UnsupervisedOpenSet).

Tensors are modelled as lists of rationals (the flattened element values of a
PyTorch tensor); a dataset split is a list of such per-sample tensors, and a
DataLoader's output is a list of batches, each batch a list of samples.  The
composed network `generator.G(to_4d(encoder(x)))` is modelled as an abstract
function `net : Tensor → Tensor` applied per sample; stacking a batch into one
tensor is modelled by concatenating (`flatten`) the per-sample lists.
-/

namespace WganEncoder

/-- A PyTorch tensor, flattened to its list of element values. -/
abbrev Tensor := List ℚ

/-- Embedding of `F.l1_loss(pred, target, reduction="sum")`: the sum of
elementwise absolute differences. -/
def l1_loss_sum (pred target : Tensor) : ℚ :=
  (List.zipWith (fun a b => |a - b|) pred target).sum

/-- Embedding of `F.mse_loss(pred, target, reduction="sum")`: the sum of
elementwise squared differences. -/
def mse_loss_sum (pred target : Tensor) : ℚ :=
  (List.zipWith (fun a b => (a - b) * (a - b)) pred target).sum

/-- Embedding of `nn.MSELoss(reduction="mean")` (line 112): the sum of
elementwise squared differences divided by the number of elements of the
input tensor. -/
def mse_loss_mean (pred target : Tensor) : ℚ :=
  mse_loss_sum pred target / (pred.length : ℚ)

/-- A batch tensor: the samples of the batch stacked into one tensor,
modelled by concatenating the flattened per-sample element lists. -/
def batchTensor (batch : List Tensor) : Tensor := batch.flatten

/-- The forward pass of one batch through the composed model followed by the
batch-mean MSE loss, as in `loss_fn(generator.G(to_4d(encoder(batch))), batch)`
(lines 37 and 53): the network applies per sample along the batch dimension. -/
def batchLoss (net : Tensor → Tensor) (batch : List Tensor) : ℚ :=
  mse_loss_mean (batchTensor (batch.map net)) (batchTensor batch)

/-- Errors a run can stop with.  `zeroDivisionError` is Python's
`ZeroDivisionError`, raised by `x / 0` on integers.  The constructor
`emptySplitError` follows the spec's words only ("evaluation must fail with
`EmptySplitError`"): no such error type exists anywhere in the code; it is
declared here solely so the spec's statement can be compared with what the
code does. -/
inductive PyError where
  | zeroDivisionError
  | emptySplitError
deriving DecidableEq

/-- Embedding of `evaluate` (lines 45-56): run every batch through the model
under `torch.no_grad()`, collect the per-batch `loss.item()` values, and
return `sum(eval_losses) / len(eval_losses)`.  When the dataloader yields
zero batches, `len(eval_losses)` is `0` and the division raises Python's
`ZeroDivisionError`. -/
def evaluate (net : Tensor → Tensor) (batches : List (List Tensor)) :
    Except PyError ℚ :=
  if batches.isEmpty then
    Except.error PyError.zeroDivisionError
  else
    Except.ok (((batches.map (batchLoss net)).sum) / (batches.length : ℚ))

/-- The per-sample mean loss over a whole split: the mean of the per-sample
mean-MSE losses.  This is NOT what `evaluate` computes; it is defined for
comparison (claim C9). -/
def perSampleMean (net : Tensor → Tensor) (samples : List Tensor) : ℚ :=
  ((samples.map (fun s => mse_loss_mean (net s) s)).sum) / (samples.length : ℚ)

/-- The per-batch L1 forward pass of the inference-only loops (lines 129-130
and 138-140): `F.l1_loss(generator.G(to_4d(encoder(x))), x, reduction="sum")`
on one batch. -/
def l1_batch (net : Tensor → Tensor) (batch : List Tensor) : ℚ :=
  l1_loss_sum (batchTensor (batch.map net)) (batchTensor batch)

/-- The per-batch L2 forward pass of the inference-only loops:
`F.mse_loss(..., reduction="sum")` on one batch. -/
def l2_batch (net : Tensor → Tensor) (batch : List Tensor) : ℚ :=
  mse_loss_sum (batchTensor (batch.map net)) (batchTensor batch)

/-- The running accumulation `known_l1 += F.l1_loss(..., reduction="sum").item()`
over all batches the loader yields (lines 127-131, 137-141), starting from `0.0`. -/
def sumL1 (net : Tensor → Tensor) (batches : List (List Tensor)) : ℚ :=
  batches.foldl (fun acc b => acc + l1_batch net b) 0

/-- The running accumulation `known_l2 += F.mse_loss(..., reduction="sum").item()`
over all batches the loader yields, starting from `0.0`. -/
def sumL2 (net : Tensor → Tensor) (batches : List (List Tensor)) : ℚ :=
  batches.foldl (fun acc b => acc + l2_batch net b) 0

/-- The aggregate distance record logged for one split in an inference-only
run (spec's `DistanceReport`, one half of the `wandb.log` call at
lines 144-148). -/
structure DistanceReport where
  sum_L1 : ℚ
  sum_L2 : ℚ
  mean_L1 : ℚ
  mean_L2 : ℚ
deriving DecidableEq

/-- The report computed for one split in the inference-only branch: the sums
are accumulated batch by batch, and the means divide the accumulated sums by
`len(loader.dataset)` (lines 144-148), where `dataset` is the evaluated
split. -/
def distanceReport (net : Tensor → Tensor) (dataset : List Tensor)
    (batches : List (List Tensor)) : DistanceReport :=
  { sum_L1 := sumL1 net batches
    sum_L2 := sumL2 net batches
    mean_L1 := sumL1 net batches / (dataset.length : ℚ)
    mean_L2 := sumL2 net batches / (dataset.length : ℚ) }

/- ### Scheduler: torch.optim.lr_scheduler.ReduceLROnPlateau -/

/-- The constructor arguments of the scheduler.  Line 114 builds
`ReduceLROnPlateau(optimizer, mode="min", factor=0.5, patience=10,
threshold_mode='abs')`; the remaining PyTorch defaults are
`threshold=1e-4`, `cooldown=0`, `min_lr=0`, `eps=1e-8`. -/
structure PlateauConfig where
  factor : ℚ
  patience : ℕ
  threshold : ℚ
  minLr : ℚ
  eps : ℚ
deriving DecidableEq

/-- The scheduler configuration the code constructs at line 114. -/
def codeSchedulerConfig : PlateauConfig :=
  { factor := 1/2
    patience := 10
    threshold := 1/10000
    minLr := 0
    eps := 1/100000000 }

/-- The mutable scheduler state: `best` (initialised to `inf`, modelled by
`none`), `num_bad_epochs`, and the optimizer's learning rate the scheduler
acts on. -/
structure PlateauState where
  best : Option ℚ
  numBadEpochs : ℕ
  lr : ℚ
deriving DecidableEq

/-- Embedding of `ReduceLROnPlateau.is_better` for `mode="min"`,
`threshold_mode='abs'`:
`a < best - threshold`.  Against the initial `best = inf` every finite metric
is better. -/
def isBetter (cfg : PlateauConfig) (a : ℚ) : Option ℚ → Bool
  | none => true
  | some best => decide (a < best - cfg.threshold)

/-- Embedding of `ReduceLROnPlateau._reduce_lr`: the new rate is
`max(old_lr * factor, min_lr)`, and it is written back only when it differs
from the old rate by more than `eps`. -/
def reduceLr (cfg : PlateauConfig) (lr : ℚ) : ℚ :=
  if lr - max (lr * cfg.factor) cfg.minLr > cfg.eps then
    max (lr * cfg.factor) cfg.minLr
  else lr

/-- Embedding of `ReduceLROnPlateau.step(metric)` with `cooldown = 0` (the
code's value):
if the metric is better than `best`, record it and zero `num_bad_epochs`,
else increment `num_bad_epochs`; then, if `num_bad_epochs > patience`,
reduce the learning rate and zero `num_bad_epochs`. -/
def plateauStep (cfg : PlateauConfig) (s : PlateauState) (metric : ℚ) :
    PlateauState :=
  let s1 := if isBetter cfg metric s.best then
              { s with best := some metric, numBadEpochs := 0 }
            else
              { s with numBadEpochs := s.numBadEpochs + 1 }
  if s1.numBadEpochs > cfg.patience then
    { s1 with lr := reduceLr cfg s1.lr, numBadEpochs := 0 }
  else s1

/- ### The epoch phase machine (training branch, lines 155-178) -/

/-- The phases an epoch of the training loop passes through, plus the
terminal state after `for i in range(config.epochs)` is exhausted. -/
inductive Phase where
  | Training (epoch : ℕ)
  | Validating (epoch : ℕ)
  | SchedUpdate (epoch : ℕ)
  | Logging (epoch : ℕ)
  | Checkpointing (epoch : ℕ)
  | Done
deriving DecidableEq

/-- The control flow of the loop body at lines 155-178: `train` (line 156),
then `evaluate` (line 157), then `scheduler.step` (line 158), then the
logging block (lines 160-175), then the checkpoint block (lines 177-178),
then the next iteration of `for i in range(config.epochs)` or loop exit. -/
def nextPhase (epochs : ℕ) : Phase → Phase
  | Phase.Training e => Phase.Validating e
  | Phase.Validating e => Phase.SchedUpdate e
  | Phase.SchedUpdate e => Phase.Logging e
  | Phase.Logging e => Phase.Checkpointing e
  | Phase.Checkpointing e =>
      if e + 1 < epochs then Phase.Training (e + 1) else Phase.Done
  | Phase.Done => Phase.Done

/-- The list of the first `n + 1` states the machine passes through from
state `s` (the orbit of `nextPhase`). -/
def phaseOrbit (epochs : ℕ) : ℕ → Phase → List Phase
  | 0, s => [s]
  | n + 1, s => s :: phaseOrbit epochs n (nextPhase epochs s)

/-- The five phases of epoch `e`, in program order. -/
def epochPhases (e : ℕ) : List Phase :=
  [Phase.Training e, Phase.Validating e, Phase.SchedUpdate e,
   Phase.Logging e, Phase.Checkpointing e]

/-- The full phase sequence of a training run: all epochs in order, each
contributing its five phases, then `Done`. -/
def runPhases (epochs : ℕ) : List Phase :=
  ((List.range epochs).map epochPhases).flatten ++ [Phase.Done]

/- ### Event traces of `main` -/

/-- The externally visible events of a run of `main`.  `optStep` is one
`optimizer.step()` inside `train` (line 39); `valForward` / `distForward`
are forward passes through the composed model, tagged with the autograd
grad mode they run under; `saveCheckpoint` records the epoch tag and the
file name passed to `torch.save`. -/
inductive Event where
  | loadPretrained
  | freezeGen
  | loadEncoderCkpt (tag : ℕ)
  | renderGrid
  | distForward (gradMode : Bool)
  | valForward (gradMode : Bool)
  | optStep (epoch : ℕ)
  | schedStep (epoch : ℕ)
  | logMetrics
  | saveCheckpoint (tag : ℕ) (name : String)
deriving DecidableEq

/-- The checkpoint file name of line 178: `"ckpt" + str(i+1) + ".pth"`. -/
def ckptName (tag : ℕ) : String := "ckpt" ++ toString tag ++ ".pth"

/-- Embedding of `with torch.no_grad():` — the statements of the body run with the
autograd grad mode forced off, whatever the ambient mode is. -/
def noGrad (body : Bool → List Event) : Bool → List Event :=
  fun _ => body false

/-- The forward passes `evaluate` performs (lines 50-54): the whole batch
loop sits inside `with torch.no_grad():`. -/
def evaluateEvents (nVal : ℕ) : Bool → List Event :=
  noGrad (fun m => List.replicate nVal (Event.valForward m))

/-- The events of one iteration of the training loop (lines 155-178):
`nTrain` optimizer steps inside `train`, the `evaluate` forwards, the
scheduler step, the console log (line 163), the reconstruction grid
(lines 165-169), the `wandb.log` (lines 171-175), and the conditional
checkpoint save (lines 177-178). -/
def epochEvents (nTrain nVal period : ℕ) (i : ℕ) (m : Bool) : List Event :=
  List.replicate nTrain (Event.optStep i)
    ++ evaluateEvents nVal m
    ++ [Event.schedStep i, Event.logMetrics, Event.renderGrid, Event.logMetrics]
    ++ (if (i + 1) % period = 0
        then [Event.saveCheckpoint (i + 1) (ckptName (i + 1))]
        else [])

/-- The events of the whole training branch: `for i in range(config.epochs)`. -/
def trainingEvents (epochs nTrain nVal period : ℕ) (m : Bool) : List Event :=
  (List.range epochs).flatMap (fun i => epochEvents nTrain nVal period i m)

/-- The events of the `config.vis_only` branch (lines 121-150): load the
epoch-100 encoder checkpoint, render the known-split grid, run the known
distance loop (lines 128-131), render the unknown-split grid, run the
unknown distance loop (lines 138-141), and log the distance report.
Neither distance loop is wrapped in `torch.no_grad()`, so their forward
passes run under the ambient grad mode `m`. -/
def visOnlyEvents (nKnown nUnk : ℕ) (m : Bool) : List Event :=
  [Event.loadEncoderCkpt 100, Event.renderGrid]
    ++ List.replicate nKnown (Event.distForward m)
    ++ [Event.renderGrid]
    ++ List.replicate nUnk (Event.distForward m)
    ++ [Event.logMetrics]

/-- The configuration fields of `configs` (lines 69-82) that drive control
flow. -/
structure Config where
  epochs : ℕ
  ckptPeriod : ℕ
  visOnly : Bool
deriving DecidableEq

/-- The literal `configs` dict of lines 69-82: `epochs = 100`,
`ckpt_period = 25`, `vis_only = True`. -/
def codeConfig : Config := { epochs := 100, ckptPeriod := 25, visOnly := true }

/-- The event trace of `main`: load the pretrained generator/discriminator
(line 107), disable gradient accumulation on their parameters (lines
109-110), then either the `vis_only` branch and return (lines 121-150) or
the training loop (lines 155-178).  PyTorch's ambient grad mode is enabled,
hence the `true` passed down. -/
def mainEvents (cfg : Config) (nTrain nVal nKnown nUnk : ℕ) : List Event :=
  [Event.loadPretrained, Event.freezeGen]
    ++ (if cfg.visOnly then visOnlyEvents nKnown nUnk true
        else trainingEvents cfg.epochs nTrain nVal cfg.ckptPeriod true)

/-- The epoch tag of a checkpoint-save event. -/
def ckptTag : Event → Option ℕ
  | Event.saveCheckpoint t _ => some t
  | _ => none

/-- The epoch tags of all checkpoints a trace saves, in order. -/
def ckptTags (evs : List Event) : List ℕ := evs.filterMap ckptTag

/-- The grad mode of a distance-loop forward pass. -/
def distMode : Event → Option Bool
  | Event.distForward m => some m
  | _ => none

/-- The grad modes of the distance-loop forward passes of a trace, in order. -/
def distGradModes (evs : List Event) : List Bool := evs.filterMap distMode

/-- How one event acts on the encoder's parameter values (modelled as a list
of rationals): an `optimizer.step()` applies the optimizer's update rule
`upd` (only the encoder's parameters were given to the Adam constructor at
line 113), `encoder = torch.load(...)` (line 122) replaces the values with
the loaded checkpoint's, and every other event leaves them unchanged. -/
def applyEvent (upd : ℚ → ℚ) (loaded : List ℚ) (enc : List ℚ) :
    Event → List ℚ
  | Event.optStep _ => enc.map upd
  | Event.loadEncoderCkpt _ => loaded
  | _ => enc

/-- The encoder parameter values at the end of a trace. -/
def finalEncoder (upd : ℚ → ℚ) (loaded init : List ℚ)
    (evs : List Event) : List ℚ :=
  evs.foldl (applyEvent upd loaded) init

/- ### Parameters of the encoder and the frozen generator (claim C6) -/

/-- A learnable parameter tensor: its values (modelled as one rational) and
its `requires_grad` flag. -/
structure Param where
  value : ℚ
  requiresGrad : Bool
deriving DecidableEq

/-- The three parameterised modules of the script: `encoder`,
`generator.G` and `generator.D`. -/
structure Models where
  encParams : List Param
  gParams : List Param
  dParams : List Param
deriving DecidableEq

/-- Embedding of `param.requires_grad = False` applied to a parameter list. -/
def freezeParams (ps : List Param) : List Param :=
  ps.map (fun p => { p with requiresGrad := false })

/-- Lines 109-110: `for param in list(generator.G.parameters()) +
list(generator.D.parameters()): param.requires_grad = False`, executed once
right after `generator.load_model` and never again. -/
def freezeGenerator (m : Models) : Models :=
  { m with gParams := freezeParams m.gParams, dParams := freezeParams m.dParams }

/-- One `optimizer.step()` of the Adam optimizer constructed at line 113:
it was handed exactly `encoder.parameters()`, so it rewrites only the
encoder's parameter values (via whatever update rule `upd` the gradients
produce) and touches nothing else. -/
def optimStep (upd : Param → ℚ) (m : Models) : Models :=
  { m with encParams := m.encParams.map (fun p => { p with value := upd p }) }

/-- A whole training run's worth of optimizer steps, one update rule per
batch. -/
def runSteps (upds : List (Param → ℚ)) (m : Models) : Models :=
  upds.foldl (fun acc u => optimStep u acc) m

/- ### Generic list helper lemmas -/

theorem foldl_add_map {α : Type} (f : α → ℚ) :
    ∀ (l : List α) (a : ℚ), l.foldl (fun acc x => acc + f x) a = a + (l.map f).sum
  | [], a => by simp
  | x :: l, a => by
    simp only [List.foldl_cons, List.map_cons, List.sum_cons]
    rw [foldl_add_map f l (a + f x), add_assoc]

theorem sumL1_eq_sum_map (net : Tensor → Tensor) (batches : List (List Tensor)) :
    sumL1 net batches = (batches.map (l1_batch net)).sum := by
  unfold sumL1
  rw [foldl_add_map, zero_add]

theorem sumL2_eq_sum_map (net : Tensor → Tensor) (batches : List (List Tensor)) :
    sumL2 net batches = (batches.map (l2_batch net)).sum := by
  unfold sumL2
  rw [foldl_add_map, zero_add]

theorem batch_zip_sum (g : ℚ → ℚ → ℚ) (net : Tensor → Tensor)
    (hlen : ∀ x, (net x).length = x.length) :
    ∀ batch : List Tensor,
      (List.zipWith g (batchTensor (batch.map net)) (batchTensor batch)).sum
        = (batch.map (fun s => (List.zipWith g (net s) s).sum)).sum
  | [] => rfl
  | s :: rest => by
    simp only [batchTensor, List.map_cons, List.flatten_cons, List.map_cons,
      List.sum_cons]
    rw [List.zipWith_append _ _ _ _ _ (hlen s), List.sum_append]
    have ih := batch_zip_sum g net hlen rest
    simp only [batchTensor] at ih
    rw [ih]

theorem l1_batch_eq_sum_per_sample (net : Tensor → Tensor)
    (hlen : ∀ x, (net x).length = x.length) (b : List Tensor) :
    l1_batch net b = (b.map (fun s => l1_loss_sum (net s) s)).sum := by
  unfold l1_batch l1_loss_sum
  exact batch_zip_sum _ net hlen b

theorem l2_batch_eq_sum_per_sample (net : Tensor → Tensor)
    (hlen : ∀ x, (net x).length = x.length) (b : List Tensor) :
    l2_batch net b = (b.map (fun s => mse_loss_sum (net s) s)).sum := by
  unfold l2_batch mse_loss_sum
  exact batch_zip_sum _ net hlen b

theorem sumL1_eq_per_sample (net : Tensor → Tensor)
    (hlen : ∀ x, (net x).length = x.length) (bs : List (List Tensor)) :
    sumL1 net bs = (bs.flatten.map (fun s => l1_loss_sum (net s) s)).sum := by
  rw [sumL1_eq_sum_map, List.map_flatten, List.sum_flatten, List.map_map]
  congr 1
  exact List.map_congr_left (fun b _ => l1_batch_eq_sum_per_sample net hlen b)

theorem sumL2_eq_per_sample (net : Tensor → Tensor)
    (hlen : ∀ x, (net x).length = x.length) (bs : List (List Tensor)) :
    sumL2 net bs = (bs.flatten.map (fun s => mse_loss_sum (net s) s)).sum := by
  rw [sumL2_eq_sum_map, List.map_flatten, List.sum_flatten, List.map_map]
  congr 1
  exact List.map_congr_left (fun b _ => l2_batch_eq_sum_per_sample net hlen b)

/-- Claim C1: for every evaluation run, the inference-only `DistanceReport`
satisfies `mean = sum / count` exactly for both the L1 and the L2 distance,
where `count` is the number of samples in the evaluated split (the code
divides the accumulated sums by `len(loader.dataset)`); in particular a
known split of 1000 samples and an unknown split of 200 samples give
`known.mean_L1 = known.sum_L1 / 1000` and
`unknown.mean_L1 = unknown.sum_L1 / 200` (and likewise for L2). -/
theorem c1_report_mean_eq_sum_div_count :
    (∀ (net : Tensor → Tensor) (ds : List Tensor) (bs : List (List Tensor)),
        (distanceReport net ds bs).mean_L1
            = (distanceReport net ds bs).sum_L1 / (ds.length : ℚ)
      ∧ (distanceReport net ds bs).mean_L2
            = (distanceReport net ds bs).sum_L2 / (ds.length : ℚ))
  ∧ (∀ (net : Tensor → Tensor) (known unknown : List Tensor)
        (kb ub : List (List Tensor)),
        known.length = 1000 → unknown.length = 200 →
          (distanceReport net known kb).mean_L1
              = (distanceReport net known kb).sum_L1 / 1000
        ∧ (distanceReport net known kb).mean_L2
              = (distanceReport net known kb).sum_L2 / 1000
        ∧ (distanceReport net unknown ub).mean_L1
              = (distanceReport net unknown ub).sum_L1 / 200
        ∧ (distanceReport net unknown ub).mean_L2
              = (distanceReport net unknown ub).sum_L2 / 200) := by
  constructor
  · intro net ds bs
    exact ⟨rfl, rfl⟩
  · intro net known unknown kb ub hk hu
    refine ⟨?_, ?_, ?_, ?_⟩ <;> simp [distanceReport, hk, hu]

/-- Witness for claim C1: the hypotheses hold and the conclusion follows at
a concrete known split of 1000 samples and unknown split of 200 samples. -/
theorem c1_report_mean_witness :
    ((List.replicate 1000 ([] : Tensor)).length = 1000
      ∧ (List.replicate 200 ([] : Tensor)).length = 200)
  ∧ ((distanceReport (fun x => x) (List.replicate 1000 ([] : Tensor)) []).mean_L1
        = (distanceReport (fun x => x) (List.replicate 1000 ([] : Tensor)) []).sum_L1 / 1000
    ∧ (distanceReport (fun x => x) (List.replicate 1000 ([] : Tensor)) []).mean_L2
        = (distanceReport (fun x => x) (List.replicate 1000 ([] : Tensor)) []).sum_L2 / 1000
    ∧ (distanceReport (fun x => x) (List.replicate 200 ([] : Tensor)) []).mean_L1
        = (distanceReport (fun x => x) (List.replicate 200 ([] : Tensor)) []).sum_L1 / 200
    ∧ (distanceReport (fun x => x) (List.replicate 200 ([] : Tensor)) []).mean_L2
        = (distanceReport (fun x => x) (List.replicate 200 ([] : Tensor)) []).sum_L2 / 200) :=
  ⟨⟨List.length_replicate 1000 ([] : Tensor), List.length_replicate 200 ([] : Tensor)⟩,
    c1_report_mean_eq_sum_div_count.2 (fun x => x)
      (List.replicate 1000 ([] : Tensor)) (List.replicate 200 ([] : Tensor))
      [] [] (List.length_replicate 1000 ([] : Tensor))
      (List.length_replicate 200 ([] : Tensor))⟩

/-- Counterexample to claim C3 as stated: on a validation split whose
dataloader yields zero batches, `evaluate` stops with Python's
`ZeroDivisionError` (raised by `sum(eval_losses) / len(eval_losses)` with
`len(eval_losses) = 0`), not with the `EmptySplitError` the claim names —
no such error type exists in the code. -/
theorem c3_empty_split_counterexample :
    evaluate (fun x => x) [] = Except.error PyError.zeroDivisionError
  ∧ evaluate (fun x => x) [] ≠ Except.error PyError.emptySplitError := by
  constructor
  · rfl
  · intro h
    rw [show evaluate (fun x : Tensor => x) []
          = Except.error PyError.zeroDivisionError from rfl] at h
    exact PyError.noConfusion (Except.error.inj h)

/-- Claim C3 amended: if the validation split is empty (the evaluation
dataloader yields zero batches), `evaluate` fails with a `ZeroDivisionError`
from the final division rather than silently returning a value; the code
defines no `EmptySplitError`. -/
theorem c3_empty_split_zero_division :
    ∀ net : Tensor → Tensor,
      evaluate net [] = Except.error PyError.zeroDivisionError :=
  fun _ => rfl

/-- Claim C9: the validation loss `evaluate` returns is the unweighted
arithmetic mean of the per-batch mean-MSE losses (their sum divided by the
number of batches); and for a split whose size is not a multiple of the
batch size this can differ from the per-sample mean loss over the split —
here three one-element samples in batches of sizes 2 and 1 give an
unweighted batch-mean average of 9/2 while the per-sample mean is 3. -/
theorem c9_val_loss_is_mean_of_batch_means :
    (∀ (net : Tensor → Tensor) (b : List Tensor) (bs : List (List Tensor)),
        evaluate net (b :: bs)
          = Except.ok ((((b :: bs).map (batchLoss net)).sum)
              / (((b :: bs).length : ℕ) : ℚ)))
  ∧ (evaluate (fun _ => [0]) [[[0], [0]], [[3]]] = Except.ok (9 / 2)
      ∧ perSampleMean (fun _ => [0]) [[0], [0], [3]] = 3
      ∧ ((9 : ℚ) / 2) ≠ 3) := by
  constructor
  · intro net b bs
    simp [evaluate]
  · refine ⟨?_, ?_, by norm_num⟩
    · simp [evaluate, batchLoss, mse_loss_mean, mse_loss_sum, batchTensor]
      norm_num
    · simp [perSampleMean, mse_loss_mean, mse_loss_sum]

/-- Claim C8: the L1 and L2 sums accumulated during an inference-only run
are invariant to how the split is partitioned into batches: for every batch
partition, the sum over batches of the per-batch sum-reduced distances
equals the sum over all individual samples of their per-sample distances,
so the `DistanceReport` does not depend on the batching (two batch lists
covering the same samples yield the same report). -/
theorem c8_sums_batch_invariant :
    ∀ net : Tensor → Tensor, (∀ x, (net x).length = x.length) →
      (∀ bs : List (List Tensor),
          sumL1 net bs = (bs.flatten.map (fun s => l1_loss_sum (net s) s)).sum
        ∧ sumL2 net bs = (bs.flatten.map (fun s => mse_loss_sum (net s) s)).sum)
    ∧ (∀ (bs1 bs2 : List (List Tensor)) (ds : List Tensor),
          bs1.flatten.Perm bs2.flatten →
            distanceReport net ds bs1 = distanceReport net ds bs2) := by
  intro net hlen
  constructor
  · intro bs
    exact ⟨sumL1_eq_per_sample net hlen bs, sumL2_eq_per_sample net hlen bs⟩
  · intro bs1 bs2 ds hperm
    have e1 : sumL1 net bs1 = sumL1 net bs2 := by
      rw [sumL1_eq_per_sample net hlen, sumL1_eq_per_sample net hlen]
      exact List.Perm.sum_eq (hperm.map _)
    have e2 : sumL2 net bs1 = sumL2 net bs2 := by
      rw [sumL2_eq_per_sample net hlen, sumL2_eq_per_sample net hlen]
      exact List.Perm.sum_eq (hperm.map _)
    unfold distanceReport
    rw [e1, e2]

/-- Witness for claim C8: the length-preservation hypothesis holds for the
identity network and the conclusion follows there. -/
theorem c8_sums_batch_invariant_witness :
    (∀ x : Tensor, ((fun y : Tensor => y) x).length = x.length)
  ∧ ((∀ bs : List (List Tensor),
        sumL1 (fun y : Tensor => y) bs
            = (bs.flatten.map (fun s => l1_loss_sum ((fun y : Tensor => y) s) s)).sum
      ∧ sumL2 (fun y : Tensor => y) bs
            = (bs.flatten.map (fun s => mse_loss_sum ((fun y : Tensor => y) s) s)).sum)
    ∧ (∀ (bs1 bs2 : List (List Tensor)) (ds : List Tensor),
        bs1.flatten.Perm bs2.flatten →
          distanceReport (fun y : Tensor => y) ds bs1
            = distanceReport (fun y : Tensor => y) ds bs2)) :=
  ⟨fun _ => rfl, c8_sums_batch_invariant (fun y : Tensor => y) (fun _ => rfl)⟩

theorem isBetter_code_one : isBetter codeSchedulerConfig 1 (some 1) = false := by
  simp only [isBetter, codeSchedulerConfig, decide_eq_false_iff_not]
  norm_num

theorem plateauStep_code_bad (n : ℕ) (lr : ℚ) (h : n < 10) :
    plateauStep codeSchedulerConfig ⟨some 1, n, lr⟩ 1 = ⟨some 1, n + 1, lr⟩ := by
  unfold plateauStep
  rw [show isBetter codeSchedulerConfig 1 (PlateauState.best ⟨some 1, n, lr⟩)
        = false from isBetter_code_one]
  simp only [Bool.false_eq_true, if_false]
  rw [if_neg]
  simp only [codeSchedulerConfig]
  omega

/-- Counterexample to claim C4 as stated: with the code's scheduler
configuration (`patience = 10`), ten consecutive epochs whose validation
loss fails to improve on the best value by the absolute threshold do NOT
reduce the learning rate — `ReduceLROnPlateau` reduces only when the bad
epoch count exceeds `patience`, i.e. on the eleventh consecutive
non-improving epoch.  Starting from best = 1, a zeroed counter and
lr = 1/1000, ten metrics of 1 (each non-improving) leave the learning rate
at 1/1000 rather than multiplying it by the factor 1/2. -/
theorem c4_ten_bad_epochs_no_reduction :
    isBetter codeSchedulerConfig 1 (some 1) = false
  ∧ ((List.replicate 10 (1 : ℚ)).foldl (plateauStep codeSchedulerConfig)
        ⟨some 1, 0, 1/1000⟩).numBadEpochs = 10
  ∧ ((List.replicate 10 (1 : ℚ)).foldl (plateauStep codeSchedulerConfig)
        ⟨some 1, 0, 1/1000⟩).lr = 1/1000
  ∧ ((1 : ℚ)/1000) ≠ (1/1000) * codeSchedulerConfig.factor := by
  have hfold : (List.replicate 10 (1 : ℚ)).foldl (plateauStep codeSchedulerConfig)
      ⟨some 1, 0, 1/1000⟩ = ⟨some 1, 10, 1/1000⟩ := by
    rw [show List.replicate 10 (1 : ℚ) = [1, 1, 1, 1, 1, 1, 1, 1, 1, 1] from rfl]
    simp only [List.foldl_cons, List.foldl_nil]
    rw [plateauStep_code_bad 0 _ (by omega), plateauStep_code_bad 1 _ (by omega),
      plateauStep_code_bad 2 _ (by omega), plateauStep_code_bad 3 _ (by omega),
      plateauStep_code_bad 4 _ (by omega), plateauStep_code_bad 5 _ (by omega),
      plateauStep_code_bad 6 _ (by omega), plateauStep_code_bad 7 _ (by omega),
      plateauStep_code_bad 8 _ (by omega), plateauStep_code_bad 9 _ (by omega)]
  refine ⟨isBetter_code_one, ?_, ?_, ?_⟩
  · rw [hfold]
  · rw [hfold]
  · simp only [codeSchedulerConfig]
    norm_num

/-- Claim C4 amended: the scheduler reduces the learning rate only when the
current epoch fails to improve and the bad-epoch counter has already
reached `patience` — i.e. on the (patience+1)-th consecutive non-improving
epoch, at which point the rate becomes `reduceLr` of the old rate and the
counter resets to 0; a genuine improvement records the new best and resets
the counter without touching the rate; a non-improving epoch before the
counter reaches `patience` only increments the counter; and with the code's
configuration (`factor = 1/2`, `min_lr = 0`, `eps = 1e-8`) a reduction
multiplies the rate by exactly the factor whenever the rate exceeds
`2 * eps`. -/
theorem c4_plateau_step_characterization :
    (∀ (cfg : PlateauConfig) (s : PlateauState) (m : ℚ),
        (plateauStep cfg s m).lr ≠ s.lr →
          isBetter cfg m s.best = false
          ∧ cfg.patience ≤ s.numBadEpochs
          ∧ (plateauStep cfg s m).lr = reduceLr cfg s.lr
          ∧ (plateauStep cfg s m).numBadEpochs = 0)
  ∧ (∀ (cfg : PlateauConfig) (s : PlateauState) (m : ℚ),
        s.numBadEpochs = cfg.patience → isBetter cfg m s.best = false →
          plateauStep cfg s m
            = { best := s.best, numBadEpochs := 0, lr := reduceLr cfg s.lr })
  ∧ (∀ (cfg : PlateauConfig) (s : PlateauState) (m : ℚ),
        isBetter cfg m s.best = true →
          plateauStep cfg s m = { best := some m, numBadEpochs := 0, lr := s.lr })
  ∧ (∀ (cfg : PlateauConfig) (s : PlateauState) (m : ℚ),
        isBetter cfg m s.best = false → s.numBadEpochs < cfg.patience →
          plateauStep cfg s m = { s with numBadEpochs := s.numBadEpochs + 1 })
  ∧ (∀ lr : ℚ, 2 * codeSchedulerConfig.eps < lr →
        reduceLr codeSchedulerConfig lr = lr * codeSchedulerConfig.factor) := by
  refine ⟨?_, ?_, ?_, ?_, ?_⟩
  · intro cfg s m h
    cases hb : isBetter cfg m s.best with
    | true =>
      exfalso
      apply h
      simp only [plateauStep, hb, if_true]
      rw [if_neg (by omega)]
    | false =>
      by_cases hp : s.numBadEpochs + 1 > cfg.patience
      · have hres : plateauStep cfg s m
            = { best := s.best, numBadEpochs := 0, lr := reduceLr cfg s.lr } := by
          simp only [plateauStep, hb, Bool.false_eq_true, if_false]
          rw [if_pos hp]
        rw [hres]
        exact ⟨rfl, by omega, rfl, rfl⟩
      · exfalso
        apply h
        simp only [plateauStep, hb, Bool.false_eq_true, if_false]
        rw [if_neg hp]
  · intro cfg s m hn hb
    simp only [plateauStep, hb, Bool.false_eq_true, if_false]
    rw [if_pos (by omega)]
  · intro cfg s m hb
    simp only [plateauStep, hb, if_true]
    rw [if_neg (by omega)]
  · intro cfg s m hb hn
    simp only [plateauStep, hb, Bool.false_eq_true, if_false]
    rw [if_neg (by omega)]
  · intro lr h
    have heps : (0 : ℚ) < codeSchedulerConfig.eps := by
      simp only [codeSchedulerConfig]; norm_num
    have hpos : 0 < lr := lt_trans (by linarith) h
    unfold reduceLr
    have hmax : max (lr * codeSchedulerConfig.factor) codeSchedulerConfig.minLr
        = lr * codeSchedulerConfig.factor := by
      apply max_eq_left
      simp only [codeSchedulerConfig]
      positivity
    rw [hmax, if_pos]
    simp only [codeSchedulerConfig] at h ⊢
    linarith

/-- Witness for claim C4 amended: at the code's configuration, in the state
reached after `patience = 10` consecutive non-improving epochs, one more
non-improving metric triggers the reduction and resets the counter. -/
theorem c4_plateau_step_witness :
    ((⟨some 1, 10, 1/1000⟩ : PlateauState).numBadEpochs
        = codeSchedulerConfig.patience
      ∧ isBetter codeSchedulerConfig 1 (some 1) = false)
  ∧ plateauStep codeSchedulerConfig ⟨some 1, 10, 1/1000⟩ 1
      = { best := some 1, numBadEpochs := 0,
          lr := reduceLr codeSchedulerConfig (1/1000) } :=
  ⟨⟨rfl, isBetter_code_one⟩,
    c4_plateau_step_characterization.2.1 codeSchedulerConfig
      ⟨some 1, 10, 1/1000⟩ 1 rfl isBetter_code_one⟩

set_option maxRecDepth 8000 in
/-- Claim C7: each epoch of the training run executes its phases in the
fixed order Training, Validating, scheduler update, Logging, Checkpointing;
from Checkpointing the machine re-enters Training of the next epoch while
epochs remain and otherwise the run is Done, which is absorbing; and for
the configured 100 epochs the full orbit of the step function is exactly
the 100 epochs' phases in order followed by Done — no phase skipped or
reordered. -/
theorem c7_phase_order :
    (∀ epochs e : ℕ,
        nextPhase epochs (Phase.Training e) = Phase.Validating e
      ∧ nextPhase epochs (Phase.Validating e) = Phase.SchedUpdate e
      ∧ nextPhase epochs (Phase.SchedUpdate e) = Phase.Logging e
      ∧ nextPhase epochs (Phase.Logging e) = Phase.Checkpointing e
      ∧ nextPhase epochs Phase.Done = Phase.Done)
  ∧ (∀ e k : ℕ,
        nextPhase (e + 1 + (k + 1)) (Phase.Checkpointing e)
          = Phase.Training (e + 1))
  ∧ (∀ e : ℕ, nextPhase (e + 1) (Phase.Checkpointing e) = Phase.Done)
  ∧ phaseOrbit 100 500 (Phase.Training 0) = runPhases 100 := by
  refine ⟨fun epochs e => ⟨rfl, rfl, rfl, rfl, rfl⟩, ?_, ?_, ?_⟩
  · intro e k
    simp only [nextPhase]
    rw [if_pos (by omega)]
  · intro e
    simp only [nextPhase]
    rw [if_neg (by omega)]
  · decide

theorem mem_epochEvents_save (nT nV p i : ℕ) (m : Bool) (t : ℕ) (name : String) :
    Event.saveCheckpoint t name ∈ epochEvents nT nV p i m
      ↔ ((i + 1) % p = 0 ∧ t = i + 1 ∧ name = ckptName (i + 1)) := by
  unfold epochEvents evaluateEvents noGrad
  by_cases h : (i + 1) % p = 0 <;>
    simp [h, List.mem_append, List.mem_replicate]

theorem ckptTags_epochEvents (nT nV p i : ℕ) (m : Bool) :
    ckptTags (epochEvents nT nV p i m)
      = if (i + 1) % p = 0 then [i + 1] else [] := by
  unfold ckptTags epochEvents evaluateEvents noGrad
  by_cases h : (i + 1) % p = 0 <;>
    simp [h, List.filterMap_append, List.filterMap_cons, ckptTag,
      List.filterMap_replicate]

theorem ckptTags_trainingEvents (ep nT nV p : ℕ) (m : Bool) :
    ckptTags (trainingEvents ep nT nV p m)
      = ((List.range ep).filter (fun i => decide ((i + 1) % p = 0))).map
          (fun i => i + 1) := by
  induction ep with
  | zero => rfl
  | succ n ih =>
    have he := ckptTags_epochEvents nT nV p n m
    unfold trainingEvents at ih ⊢
    unfold ckptTags at ih he ⊢
    rw [List.range_succ, List.flatMap_append, List.filter_append,
      List.map_append, List.filterMap_append, ih]
    simp only [List.flatMap_cons, List.flatMap_nil, List.append_nil]
    rw [he]
    by_cases h : (n + 1) % p = 0 <;> simp [h]

/-- Claim C2: in a training run a checkpoint of the encoder is persisted at
epoch index `i` if and only if `(i+1) % ckpt_period == 0`, the saved file's
name embeds the epoch number `i+1` (as `"ckpt" + str(i+1) + ".pth"`), and
with `ckpt_period = 25` and `epochs = 100` exactly the four checkpoints
tagged 25, 50, 75 and 100 are created. -/
theorem c2_checkpoint_iff_period :
    (∀ (epochs nT nV period : ℕ) (m : Bool) (t : ℕ) (name : String),
        Event.saveCheckpoint t name ∈ trainingEvents epochs nT nV period m
          ↔ ∃ i, i < epochs ∧ (i + 1) % period = 0 ∧ t = i + 1
              ∧ name = ckptName (i + 1))
  ∧ (∀ (nT nV : ℕ) (m : Bool),
        ckptTags (trainingEvents 100 nT nV 25 m) = [25, 50, 75, 100])
  ∧ (∀ t : ℕ, ckptName t = "ckpt" ++ toString t ++ ".pth") := by
  refine ⟨?_, ?_, fun t => rfl⟩
  · intro epochs nT nV period m t name
    unfold trainingEvents
    simp [List.mem_flatMap, List.mem_range, mem_epochEvents_save]
  · intro nT nV m
    rw [ckptTags_trainingEvents]
    decide

/-- Claim C5 (supporting theorem for the code bug): in the inference-only
branch every forward pass of the known- and unknown-split distance loops
runs with gradient tracking ENABLED — the loops at lines 128-141 are not
wrapped in `torch.no_grad()`, so they inherit PyTorch's ambient enabled
grad mode — whereas `evaluate`'s forward passes do run with gradient
tracking disabled.  This contradicts the claim that every distance
computation of an inference-only run creates no gradient state. -/
theorem c5_distance_loops_grad_enabled :
    (∀ nKnown nUnk : ℕ,
        distGradModes (visOnlyEvents nKnown nUnk true)
          = List.replicate (nKnown + nUnk) true)
  ∧ (∀ ep p nT nV nK nU : ℕ,
        distGradModes (mainEvents ⟨ep, p, true⟩ nT nV nK nU)
          = List.replicate (nK + nU) true)
  ∧ (∀ nV : ℕ,
        evaluateEvents nV true = List.replicate nV (Event.valForward false)) := by
  have hvis : ∀ nKnown nUnk : ℕ,
      distGradModes (visOnlyEvents nKnown nUnk true)
        = List.replicate (nKnown + nUnk) true := by
    intro nKnown nUnk
    unfold distGradModes visOnlyEvents
    rw [List.replicate_add]
    simp [List.filterMap_append, List.filterMap_replicate, distMode]
  refine ⟨hvis, ?_, fun nV => rfl⟩
  · intro ep p nT nV nK nU
    have hv := hvis nK nU
    unfold distGradModes at hv
    unfold mainEvents distGradModes
    rw [if_pos (by trivial), List.filterMap_append, hv]
    rfl

theorem runSteps_frozen (upds : List (Param → ℚ)) :
    ∀ m : Models, (runSteps upds m).gParams = m.gParams
      ∧ (runSteps upds m).dParams = m.dParams := by
  induction upds with
  | nil => intro m; exact ⟨rfl, rfl⟩
  | cons u us ih =>
    intro m
    unfold runSteps at ih ⊢
    rw [List.foldl_cons]
    exact ih (optimStep u m)

theorem map_value_freezeParams (ps : List Param) :
    (freezeParams ps).map Param.value = ps.map Param.value := by
  unfold freezeParams
  rw [List.map_map]
  rfl

theorem count_freezeGen_epochEvents (nT nV p i : ℕ) (m : Bool) :
    (epochEvents nT nV p i m).count Event.freezeGen = 0 := by
  unfold epochEvents evaluateEvents noGrad
  by_cases h : (i + 1) % p = 0 <;>
    simp [h, List.count_append, List.count_replicate, List.count_cons]

theorem count_freezeGen_trainingEvents (ep nT nV p : ℕ) (m : Bool) :
    (trainingEvents ep nT nV p m).count Event.freezeGen = 0 := by
  induction ep with
  | zero => rfl
  | succ n ih =>
    unfold trainingEvents at ih ⊢
    rw [List.range_succ, List.flatMap_append, List.count_append, ih]
    simp [count_freezeGen_epochEvents]

theorem count_freezeGen_visOnlyEvents (nK nU : ℕ) (m : Bool) :
    (visOnlyEvents nK nU m).count Event.freezeGen = 0 := by
  unfold visOnlyEvents
  simp [List.count_append, List.count_replicate, List.count_cons]

/-- Claim C6: only the encoder's parameters are ever updated.  After the
load-time freeze, every optimizer step of the run leaves the generator's
and the discriminator's parameter lists untouched (same values, same
flags), gradient accumulation on them stays disabled for the whole run,
freezing did not change their values, and the `requires_grad = False` loop
is executed exactly once per run of `main`, in either branch. -/
theorem c6_only_encoder_updated :
    (∀ (m0 : Models) (upds : List (Param → ℚ)),
        (runSteps upds (freezeGenerator m0)).gParams
            = (freezeGenerator m0).gParams
      ∧ (runSteps upds (freezeGenerator m0)).dParams
            = (freezeGenerator m0).dParams
      ∧ (∀ p ∈ (runSteps upds (freezeGenerator m0)).gParams,
            p.requiresGrad = false)
      ∧ (∀ p ∈ (runSteps upds (freezeGenerator m0)).dParams,
            p.requiresGrad = false)
      ∧ (runSteps upds (freezeGenerator m0)).gParams.map Param.value
            = m0.gParams.map Param.value
      ∧ (runSteps upds (freezeGenerator m0)).dParams.map Param.value
            = m0.dParams.map Param.value)
  ∧ (∀ (cfg : Config) (nT nV nK nU : ℕ),
        (mainEvents cfg nT nV nK nU).count Event.freezeGen = 1) := by
  constructor
  · intro m0 upds
    obtain ⟨hg, hd⟩ := runSteps_frozen upds (freezeGenerator m0)
    refine ⟨hg, hd, ?_, ?_, ?_, ?_⟩
    · intro p hp
      rw [hg] at hp
      simp only [freezeGenerator, freezeParams, List.mem_map] at hp
      obtain ⟨q, _, hq⟩ := hp
      rw [← hq]
    · intro p hp
      rw [hd] at hp
      simp only [freezeGenerator, freezeParams, List.mem_map] at hp
      obtain ⟨q, _, hq⟩ := hp
      rw [← hq]
    · rw [hg]
      exact map_value_freezeParams m0.gParams
    · rw [hd]
      exact map_value_freezeParams m0.dParams
  · intro cfg nT nV nK nU
    unfold mainEvents
    rw [List.count_append]
    cases h : cfg.visOnly <;>
      simp [h, count_freezeGen_visOnlyEvents, count_freezeGen_trainingEvents,
        List.count_cons]

theorem foldl_applyEvent_replicate (upd : ℚ → ℚ) (loaded : List ℚ) (e : Event)
    (h : ∀ x, applyEvent upd loaded x e = x) :
    ∀ (n : ℕ) (x : List ℚ),
      (List.replicate n e).foldl (applyEvent upd loaded) x = x := by
  intro n
  induction n with
  | zero => intro x; rfl
  | succ k ih =>
    intro x
    rw [List.replicate_succ, List.foldl_cons, h x]
    exact ih x

/-- Claim C10: an inference-only run (`vis_only = True`) returns right
after logging the distance report without entering the training loop: its
trace contains no checkpoint save and no optimizer step, the loaded
encoder's parameter values are unchanged by the entire run (the final
encoder parameters equal the checkpoint the run loaded), and the last
event of the run is the metrics log. -/
theorem c10_inference_only_frame :
    ∀ (ep p nT nV nK nU : ℕ) (upd : ℚ → ℚ) (loaded init : List ℚ),
      (∀ (t : ℕ) (name : String),
          Event.saveCheckpoint t name ∉ mainEvents ⟨ep, p, true⟩ nT nV nK nU)
      ∧ (∀ i : ℕ, Event.optStep i ∉ mainEvents ⟨ep, p, true⟩ nT nV nK nU)
      ∧ finalEncoder upd loaded init (mainEvents ⟨ep, p, true⟩ nT nV nK nU)
          = loaded
      ∧ (mainEvents ⟨ep, p, true⟩ nT nV nK nU).getLast?
          = some Event.logMetrics := by
  intro ep p nT nV nK nU upd loaded init
  have hmain : mainEvents ⟨ep, p, true⟩ nT nV nK nU
      = [Event.loadPretrained, Event.freezeGen]
        ++ visOnlyEvents nK nU true := by
    unfold mainEvents
    rfl
  refine ⟨?_, ?_, ?_, ?_⟩
  · intro t name
    rw [hmain]
    unfold visOnlyEvents
    simp [List.mem_append, List.mem_replicate]
  · intro i
    rw [hmain]
    unfold visOnlyEvents
    simp [List.mem_append, List.mem_replicate]
  · rw [hmain]
    unfold visOnlyEvents finalEncoder
    have hdist : ∀ x, applyEvent upd loaded x (Event.distForward true) = x :=
      fun x => rfl
    simp only [List.foldl_append, List.foldl_cons, List.foldl_nil,
      foldl_applyEvent_replicate upd loaded _ hdist]
    rfl
  · rw [hmain]
    unfold visOnlyEvents
    rw [← List.append_assoc, ← List.append_assoc, ← List.append_assoc,
      ← List.append_assoc]
    exact List.getLast?_concat _

end WganEncoder
